import Mathlib

/-!
Shallow embedding of the visibility-listener package: the notification
registry of src/eventEmitter.ts, the vendor-prefix probe of src/utils.ts
and the strategy-selecting state tracker of src/visibilityStateListener.ts.
JavaScript callbacks are modelled by an identifier together with a flag
saying whether the callback throws when invoked; the wall clock is an
explicit timestamp argument where the source calls Date.now(); the host's
listener registry is modelled by a counter of attached listener sets.
-/

namespace VisibilityListener

/-- A subscriber callback: an identifier (so invocations can be traced) and
whether invoking it raises an exception. -/
structure Listener where
  id : Nat
  throws : Bool
deriving DecidableEq

/-- The emitter's events record: event name to ordered callback list,
mirroring the Record of src/eventEmitter.ts. -/
abbrev Events := List (String × List Listener)

/-- Lookup of events[event]. -/
def lookupEvent (es : Events) (e : String) : Option (List Listener) :=
  (es.find? (fun p => p.1 == e)).map (fun p => p.2)

/-- The on function of src/eventEmitter.ts as an update of the events record:
push the listener at the end of the entry for this event, creating the entry
(at the end of the record) if absent. -/
def onEvent : Events → String → Listener → Events
  | [], e, l => [(e, [l])]
  | p :: es, e, l =>
    if p.1 == e then (p.1, p.2 ++ [l]) :: es else p :: onEvent es e l

/-- The forEach loop inside emit: invoke listeners in order; a listener that
throws aborts the loop and the exception propagates (forEach does not catch).
Returns the trace of invoked listener ids and whether an exception escaped. -/
def runListeners : List Listener → List Nat × Bool
  | [] => ([], false)
  | l :: ls =>
    if l.throws then ([l.id], true)
    else
      let r := runListeners ls
      (l.id :: r.1, r.2)

/-- Record of one publish: the channel name, the argument list, the trace of
invoked listener ids and whether an exception escaped the dispatch loop. -/
structure PublishRecord where
  channel : String
  args : List String
  invoked : List Nat
  threw : Bool
deriving DecidableEq

/-- The emit function of src/eventEmitter.ts: look the event up and run the
forEach loop over its listeners (a silent no-op when none are registered). -/
def emit (es : Events) (e : String) (args : List String) : PublishRecord :=
  { channel := e
    args := args
    invoked := (runListeners ((lookupEvent es e).getD [])).1
    threw := (runListeners ((lookupEvent es e).getD [])).2 }

/-- A document-like host capability: its present properties with their string
values, whether hasFocus exists and what it would return, and whether
addEventListener is a function. -/
structure Doc where
  props : List (String × String)
  hasFocus : Option Bool
  hasAddEventListener : Bool
deriving DecidableEq

/-- The JavaScript in-operator on the document model. -/
def hasProp (d : Doc) (p : String) : Bool :=
  (d.props.find? (fun q => q.1 == p)).isSome

/-- Property read off the document model. -/
def getProp (d : Doc) (p : String) : Option String :=
  (d.props.find? (fun q => q.1 == p)).map (fun q => q.2)

/-- The fixed probe order of src/utils.ts. -/
def availablePrefixes : List String := ["webkit", "ms", "o", "moz", "khtml"]

/-- The findPrefix function of src/utils.ts. The module-level cachedPrefix
variable is passed and returned explicitly: the first component is the
returned string, the second the cache after the call. -/
def findPrefix (cache : Option String) (d : Doc) : String × Option String :=
  match cache with
  | some c => (c, some c)
  | none =>
    let p := (availablePrefixes.find? (fun q => hasProp d (q ++ "Hidden"))).getD ""
    (p, some p)

example : findPrefix none ⟨[("mozHidden", "1")], none, true⟩ = ("moz", some "moz") := by decide
example : findPrefix (some "webkit") ⟨[("mozHidden", "1")], none, true⟩
    = ("webkit", some "webkit") := by decide
example : (emit (onEvent (onEvent [] "update" ⟨0, true⟩) "update" ⟨1, false⟩)
    "update" ["hidden"]).invoked = [0] := by decide

/-- The three wiring strategies of src/types.ts. -/
inductive Strategy where
  | modern
  | focusBlur
  | focusBlurIE
deriving DecidableEq

/-- The mutable state record of src/visibilityStateListener.ts. The source
field named after the vendor string is called pfx here; timestamps are Nat
milliseconds. -/
structure TrackerState where
  error : Option String
  started : Bool
  isPaused : Bool
  value : String
  pfx : String
  visibilityProp : String
  hiddenProp : String
  lastStateChangeTime : Option Nat
  stateChangeCount : Nat
deriving DecidableEq

/-- Construction options after resolving the global fallbacks: whether a
window-equivalent handle is available, the document-like capability if
available, and the optional eventNames.update override. -/
structure Options where
  win : Bool
  doc : Option Doc
  eventNamesUpdate : Option String
deriving DecidableEq

/-- A tracker instance: the private emitter's record, the state record, the
strategy fixed at construction, the resolved update channel name, and the
number of attached native listener sets (the model of the host registry). -/
structure Tracker where
  events : Events
  st : TrackerState
  strategy : Option Strategy
  updateEvent : String
  attached : Nat
deriving DecidableEq

/-- The determineStrategy closure: modern when the derived hidden property is
in the document, focus-blur when addEventListener is a function, the legacy
fallback otherwise; the empty strategy when the document is absent. -/
def determineStrategy (docOpt : Option Doc) (hiddenProp : String) : Option Strategy :=
  match docOpt with
  | none => none
  | some d =>
    if hasProp d hiddenProp then some .modern
    else if d.hasAddEventListener then some .focusBlur
    else some .focusBlurIE

/-- The error code of src/constants.ts. -/
def invalidGlobals : String := "INVALID_GLOBALS"

/-- The createVisibilityStateListener function of src/visibilityStateListener.ts.
The process-wide prefix cache is threaded explicitly: the second component is
the cache after construction. With a handle missing the error is recorded,
findPrefix is not called and the derived property names stay empty; otherwise
the prefix is resolved, the property names derived, the strategy selected and
the initial value read off the document (visibility property when the modern
strategy holds and the property is in the document, the empty string being
falsy; else the hasFocus query when hasFocus is a function; else the seeded
default). -/
def createVisibilityStateListener (cache : Option String) (opts : Options) :
    Tracker × Option String :=
  let updateEvent :=
    match opts.eventNamesUpdate with
    | some u => if u.length > 0 then u else "update"
    | none => "update"
  match opts.doc, opts.win with
  | some d, true =>
    let pr := findPrefix cache d
    let pfx := pr.1
    let hiddenProp := pfx ++ (if pfx.length > 0 then "Hidden" else "hidden")
    let visibilityProp := pfx ++ (if pfx.length > 0 then "VisibilityState" else "visibilityState")
    let strat := determineStrategy (some d) hiddenProp
    let value :=
      if strat == some Strategy.modern && hasProp d visibilityProp then
        let v := (getProp d visibilityProp).getD ""
        if v.length > 0 then v else "visible"
      else if d.hasFocus.isSome then
        if d.hasFocus.getD false then "visible" else "hidden"
      else "visible"
    ({ events := []
       st := { error := none, started := false, isPaused := false, value := value,
               pfx := pfx, visibilityProp := visibilityProp, hiddenProp := hiddenProp,
               lastStateChangeTime := none, stateChangeCount := 0 }
       strategy := strat
       updateEvent := updateEvent
       attached := 0 }, pr.2)
  | _, _ =>
    ({ events := []
       st := { error := some invalidGlobals, started := false, isPaused := false,
               value := "visible", pfx := "", visibilityProp := "", hiddenProp := "",
               lastStateChangeTime := none, stateChangeCount := 0 }
       strategy := determineStrategy opts.doc ""
       updateEvent := updateEvent
       attached := 0 }, cache)

/-- The updateState handler: discard when paused; on a strict state change
mutate value, timestamp and count, then publish the update channel with the
new value as sole argument; discard an identical value. The Date.now() read
is the explicit now argument. -/
def updateState (t : Tracker) (newState : String) (now : Nat) :
    Tracker × Option PublishRecord :=
  if t.st.isPaused then (t, none)
  else if newState ≠ t.st.value then
    ({ t with
        st := { t.st with
                  value := newState,
                  lastStateChangeTime := some now,
                  stateChangeCount := t.st.stateChangeCount + 1 } },
     some (emit t.events t.updateEvent [newState]))
  else (t, none)

/-- The start function: false on a recorded error; true and unchanged when
already started; otherwise attach the strategy's listener set and raise the
started flag, clearing isPaused. -/
def startOp (t : Tracker) : Tracker × Bool :=
  if t.st.error.isSome then (t, false)
  else if t.st.started then (t, true)
  else
    ({ t with st := { t.st with started := true, isPaused := false },
              attached := (match t.strategy with
                           | some _ => t.attached + 1
                           | none => t.attached) }, true)

/-- The pause function: false on a recorded error; true and unchanged when
not started; otherwise detach the strategy's listener set, clear started and
raise isPaused. -/
def pauseOp (t : Tracker) : Tracker × Bool :=
  if t.st.error.isSome then (t, false)
  else if t.st.started = false then (t, true)
  else
    ({ t with st := { t.st with started := false, isPaused := true },
              attached := (match t.strategy with
                           | some _ => t.attached - 1
                           | none => t.attached) }, true)

/-- The destroy function: detach the strategy's listener set when started,
then clear both lifecycle flags. -/
def destroyOp (t : Tracker) : Tracker :=
  let t1 :=
    if t.st.started then
      { t with attached := (match t.strategy with
                            | some _ => t.attached - 1
                            | none => t.attached) }
    else t
  { t1 with st := { t1.st with started := false, isPaused := false } }

/-- Delivery of one native signal already normalized to the value v: the
handler runs once per attached listener set. -/
def deliverRep : Nat → Tracker → String → Nat → Tracker × List PublishRecord
  | 0, t, _, _ => (t, [])
  | n + 1, t, v, now =>
    let r := updateState t v now
    let r2 := deliverRep n r.1 v now
    (r2.1, r.2.toList ++ r2.2)

/-- A native signal carrying normalized value v at wall-clock time now. -/
def signalOp (t : Tracker) (v : String) (now : Nat) : Tracker × List PublishRecord :=
  deliverRep t.attached t v now

/-- The observable operations on a tracker instance. -/
inductive Op where
  | on (e : String) (l : Listener)
  | start
  | pause
  | destroy
  | signal (v : String) (now : Nat)
deriving DecidableEq

/-- One operation applied to a tracker, with the publishes it caused. -/
def step (t : Tracker) : Op → Tracker × List PublishRecord
  | .on e l => ({ t with events := onEvent t.events e l }, [])
  | .start => ((startOp t).1, [])
  | .pause => ((pauseOp t).1, [])
  | .destroy => (destroyOp t, [])
  | .signal v now => signalOp t v now

/-- A sequence of operations applied left to right, publishes concatenated. -/
def run (t : Tracker) : List Op → Tracker × List PublishRecord
  | [] => (t, [])
  | op :: ops =>
    let r := step t op
    let r2 := run r.1 ops
    (r2.1, r.2 ++ r2.2)

/-- The hasError accessor: a string error code of positive length. -/
def hasError (t : Tracker) : Bool :=
  match t.st.error with
  | some s => s.length > 0
  | none => false

/-- The getError accessor. -/
def getError (t : Tracker) : Option String := t.st.error

/-- The getState accessor. -/
def getState (t : Tracker) : String := t.st.value

/-- The getLastStateChangeTime accessor. -/
def getLastStateChangeTime (t : Tracker) : Option Nat := t.st.lastStateChangeTime

/-- The getStateChangeCount accessor. -/
def getStateChangeCount (t : Tracker) : Nat := t.st.stateChangeCount

/-- The seeding rule exactly as the specification sentence orders it: under
the modern strategy the visibility property is read with a fallback to the
default on an empty or falsy read; otherwise, when a focus query is
available, it decides between visible and hidden; otherwise the baseline
default stands. -/
def specSeedValue (d : Doc) (strat : Option Strategy) (visibilityProp : String) : String :=
  if strat == some Strategy.modern then
    if ((getProp d visibilityProp).getD "").length > 0 then
      (getProp d visibilityProp).getD ""
    else "visible"
  else if d.hasFocus.isSome then
    if d.hasFocus.getD false then "visible" else "hidden"
  else "visible"

section EmitterLemmas

theorem runListeners_no_throws (ls : List Listener) (h : ∀ x ∈ ls, x.throws = false) :
    runListeners ls = (ls.map Listener.id, false) := by
  induction ls with
  | nil => rfl
  | cons l ls ih =>
    have hl := h l (List.mem_cons_self l ls)
    have hrest : ∀ x ∈ ls, x.throws = false := fun x hx => h x (List.mem_cons_of_mem l hx)
    simp [runListeners, hl, ih hrest]

theorem runListeners_throws_at (ls1 ls2 : List Listener) (l : Listener)
    (h1 : ∀ x ∈ ls1, x.throws = false) (h2 : l.throws = true) :
    runListeners (ls1 ++ l :: ls2) = (ls1.map Listener.id ++ [l.id], true) := by
  induction ls1 with
  | nil => simp [runListeners, h2]
  | cons x xs ih =>
    have hx := h1 x (List.mem_cons_self x xs)
    have hrest : ∀ y ∈ xs, y.throws = false := fun y hy => h1 y (List.mem_cons_of_mem x hy)
    simp [runListeners, hx, ih hrest]

theorem runListeners_subset (ls : List Listener) :
    ∀ i ∈ (runListeners ls).1, ∃ l ∈ ls, l.id = i := by
  induction ls with
  | nil => intro i hi; simp [runListeners] at hi
  | cons l ls ih =>
    intro i hi
    by_cases hl : l.throws
    · simp [runListeners, hl] at hi
      exact ⟨l, List.mem_cons_self l ls, hi.symm⟩
    · simp [runListeners, hl] at hi
      rcases hi with hi | hi
      · exact ⟨l, List.mem_cons_self l ls, hi.symm⟩
      · rcases ih i hi with ⟨x, hx, hxi⟩
        exact ⟨x, List.mem_cons_of_mem l hx, hxi⟩

theorem lookupEvent_onEvent_self (es : Events) (e : String) (l : Listener) :
    lookupEvent (onEvent es e l) e = some (((lookupEvent es e).getD []) ++ [l]) := by
  induction es with
  | nil => simp [onEvent, lookupEvent, List.find?]
  | cons p es ih =>
    by_cases hp : (p.1 == e) = true
    · simp [onEvent, lookupEvent, List.find?, hp]
    · have hp' : (p.1 == e) = false := by simp_all
      simp [onEvent, lookupEvent, List.find?, hp'] at ih ⊢
      exact ih

theorem lookupEvent_onEvent_other (es : Events) (e e' : String) (l : Listener)
    (hne : e' ≠ e) :
    lookupEvent (onEvent es e' l) e = lookupEvent es e := by
  induction es with
  | nil =>
    have : (e' == e) = false := beq_eq_false_iff_ne.mpr hne
    simp [onEvent, lookupEvent, List.find?, this]
  | cons p es ih =>
    by_cases hp : (p.1 == e') = true
    · have hp1 : p.1 = e' := by simpa using hp
      have hpe : (p.1 == e) = false := by
        rw [hp1]; exact beq_eq_false_iff_ne.mpr hne
      simp [onEvent, lookupEvent, List.find?, hp, hpe]
    · have hp' : (p.1 == e') = false := by simp_all
      by_cases hpe : (p.1 == e) = true
      · simp [onEvent, lookupEvent, List.find?, hp', hpe]
      · have hpe' : (p.1 == e) = false := by simp_all
        simp [onEvent, lookupEvent, List.find?, hp', hpe'] at ih ⊢
        exact ih

end EmitterLemmas

/-- C1: the claim that a raising callback does not prevent the callbacks
registered after it from being invoked in the same publish is false on the
code: with callback 0 registered first and raising, and callback 1 registered
second, the publish invokes callback 0 only, callback 1 is not invoked, and
the exception escapes the publish. -/
theorem claim_C1_counterexample :
    lookupEvent (onEvent (onEvent [] "update" ⟨0, true⟩) "update" ⟨1, false⟩) "update"
      = some [⟨0, true⟩, ⟨1, false⟩] ∧
    (emit (onEvent (onEvent [] "update" ⟨0, true⟩) "update" ⟨1, false⟩) "update"
      ["hidden"]).invoked = [0] ∧
    1 ∉ (emit (onEvent (onEvent [] "update" ⟨0, true⟩) "update" ⟨1, false⟩) "update"
      ["hidden"]).invoked ∧
    (emit (onEvent (onEvent [] "update" ⟨0, true⟩) "update" ⟨1, false⟩) "update"
      ["hidden"]).threw = true := by
  decide

/-- C1 (amended): when the k-th registered callback raises, the publish
invokes the earlier callbacks in registration order and the k-th itself, the
exception propagates out of the publish, and the callbacks registered after
the k-th are not invoked in that publish (the invocation trace stops at the
k-th). -/
theorem claim_C1_amended (es : Events) (e : String) (args : List String)
    (ls1 ls2 : List Listener) (l : Listener)
    (hl : lookupEvent es e = some (ls1 ++ l :: ls2))
    (h1 : ∀ x ∈ ls1, x.throws = false) (h2 : l.throws = true) :
    (emit es e args).invoked = ls1.map Listener.id ++ [l.id] ∧
    (emit es e args).threw = true := by
  have h := runListeners_throws_at ls1 ls2 l h1 h2
  simp [emit, hl, h]

/-- Witness for the amended C1 at a concrete registration list. -/
theorem claim_C1_witness :
    (emit (onEvent (onEvent [] "u" ⟨4, false⟩) "u" ⟨5, true⟩) "u" []).invoked = [4, 5] ∧
    (emit (onEvent (onEvent [] "u" ⟨4, false⟩) "u" ⟨5, true⟩) "u" []).threw = true :=
  claim_C1_amended (onEvent (onEvent [] "u" ⟨4, false⟩) "u" ⟨5, true⟩) "u" []
    [⟨4, false⟩] [] ⟨5, true⟩ (by decide) (by decide) (by decide)

/-- C2: the normalization handler is a complete no-op, leaving the current
value, the count and the timestamp unchanged and publishing nothing, exactly
when the tracker is paused or the incoming value is strictly equal to the
current value. -/
theorem claim_C2_noop_iff (t : Tracker) (v : String) (now : Nat) :
    ((updateState t v now).1.st.value = t.st.value ∧
     (updateState t v now).1.st.stateChangeCount = t.st.stateChangeCount ∧
     (updateState t v now).1.st.lastStateChangeTime = t.st.lastStateChangeTime ∧
     (updateState t v now).2 = none)
    ↔ (t.st.isPaused = true ∨ v = t.st.value) := by
  unfold updateState
  cases hp : t.st.isPaused
  · by_cases hv : v = t.st.value
    · simp [hv]
    · simp [hv]
  · simp

/-- Full description of the handler on an accepted transition. -/
theorem updateState_changed (t : Tracker) (v : String) (now : Nat)
    (hp : t.st.isPaused = false) (hv : v ≠ t.st.value) :
    updateState t v now
      = ({ t with
            st := { t.st with
                      value := v,
                      lastStateChangeTime := some now,
                      stateChangeCount := t.st.stateChangeCount + 1 } },
         some (emit t.events t.updateEvent [v])) := by
  unfold updateState
  simp [hp, hv]

/-- C3: with the tracker not paused and a strictly different incoming value,
the handler writes the new value, stamps the current wall-clock time,
increments the count by one and publishes the configured channel with the new
value as sole argument. -/
theorem claim_C3_transition (t : Tracker) (v : String) (now : Nat)
    (hp : t.st.isPaused = false) (hv : v ≠ t.st.value) :
    (updateState t v now).1.st.value = v ∧
    (updateState t v now).1.st.lastStateChangeTime = some now ∧
    (updateState t v now).1.st.stateChangeCount = t.st.stateChangeCount + 1 ∧
    (updateState t v now).2 = some (emit t.events t.updateEvent [v]) ∧
    (emit t.events t.updateEvent [v]).channel = t.updateEvent ∧
    (emit t.events t.updateEvent [v]).args = [v] := by
  unfold updateState
  simp [hp, hv, emit]

/-- Witness for C3 at a concrete tracker, value and time. -/
theorem claim_C3_witness :
    (updateState ⟨[], ⟨none, true, false, "visible", "", "visibilityState", "hidden",
        none, 0⟩, some Strategy.modern, "update", 1⟩ "hidden" 7).1.st.value = "hidden" ∧
    (updateState ⟨[], ⟨none, true, false, "visible", "", "visibilityState", "hidden",
        none, 0⟩, some Strategy.modern, "update", 1⟩ "hidden" 7).1.st.lastStateChangeTime
      = some 7 ∧
    (updateState ⟨[], ⟨none, true, false, "visible", "", "visibilityState", "hidden",
        none, 0⟩, some Strategy.modern, "update", 1⟩ "hidden" 7).1.st.stateChangeCount
      = 0 + 1 ∧
    (updateState ⟨[], ⟨none, true, false, "visible", "", "visibilityState", "hidden",
        none, 0⟩, some Strategy.modern, "update", 1⟩ "hidden" 7).2
      = some (emit [] "update" ["hidden"]) ∧
    (emit [] "update" ["hidden"]).channel = "update" ∧
    (emit [] "update" ["hidden"]).args = ["hidden"] :=
  claim_C3_transition ⟨[], ⟨none, true, false, "visible", "", "visibilityState", "hidden",
      none, 0⟩, some Strategy.modern, "update", 1⟩ "hidden" 7 (by decide) (by decide)

/-- C8: the vendor-prefix probe tests webkit, ms, o, moz, khtml in that order
on a first (uncached) call, returns the first prefix whose Hidden-suffixed
property is on the document and the empty string when none is, caches the
result, and every later call returns the cached first result whatever
document it receives. -/
theorem claim_C8_findPrefix :
    (∀ d : Doc,
      (findPrefix none d).1 =
        (if hasProp d "webkitHidden" then "webkit"
         else if hasProp d "msHidden" then "ms"
         else if hasProp d "oHidden" then "o"
         else if hasProp d "mozHidden" then "moz"
         else if hasProp d "khtmlHidden" then "khtml"
         else "") ∧
      (findPrefix none d).2 = some ((findPrefix none d).1)) ∧
    (∀ (c : String) (d : Doc), findPrefix (some c) d = (c, some c)) ∧
    (∀ d1 d2 : Doc, findPrefix ((findPrefix none d1).2) d2
        = ((findPrefix none d1).1, (findPrefix none d1).2)) := by
  refine ⟨fun d => ⟨?_, rfl⟩, fun c d => rfl, fun d1 d2 => rfl⟩
  have e1 : "webkit" ++ "Hidden" = "webkitHidden" := rfl
  have e2 : "ms" ++ "Hidden" = "msHidden" := rfl
  have e3 : "o" ++ "Hidden" = "oHidden" := rfl
  have e4 : "moz" ++ "Hidden" = "mozHidden" := rfl
  have e5 : "khtml" ++ "Hidden" = "khtmlHidden" := rfl
  simp only [findPrefix, availablePrefixes, List.find?, e1, e2, e3, e4, e5]
  cases h1 : hasProp d "webkitHidden" <;> cases h2 : hasProp d "msHidden" <;>
    cases h3 : hasProp d "oHidden" <;> cases h4 : hasProp d "mozHidden" <;>
      cases h5 : hasProp d "khtmlHidden" <;> simp [h1, h2, h3, h4, h5]

section ErrorPath

/-- A tracker in the permanent construction-error state: the error code is
recorded, both lifecycle flags are down and no native listener is attached. -/
def ErrState (t : Tracker) : Prop :=
  t.st.error = some invalidGlobals ∧ t.st.started = false ∧
  t.st.isPaused = false ∧ t.attached = 0

theorem updateState_attached (t : Tracker) (v : String) (now : Nat) :
    (updateState t v now).1.attached = t.attached := by
  unfold updateState
  by_cases hp : t.st.isPaused = true <;> by_cases hv : v = t.st.value <;> simp [hp, hv]

theorem errState_step (t : Tracker) (op : Op) (h : ErrState t) :
    ErrState (step t op).1 ∧ (step t op).2 = [] := by
  obtain ⟨he, hs, hp, ha⟩ := h
  have hsome : t.st.error.isSome = true := by simp [he]
  cases op with
  | «on» e l => exact ⟨⟨he, hs, hp, ha⟩, rfl⟩
  | start => simp [step, startOp, hsome]; exact ⟨he, hs, hp, ha⟩
  | pause => simp [step, pauseOp, hsome]; exact ⟨he, hs, hp, ha⟩
  | destroy =>
    have h1 : (step t Op.destroy).1
        = { t with st := { t.st with started := false, isPaused := false } } := by
      simp [step, destroyOp, hs]
    refine ⟨?_, rfl⟩
    rw [h1]
    exact ⟨he, rfl, rfl, ha⟩
  | signal v now => simp [step, signalOp, ha, deliverRep]; exact ⟨he, hs, hp, ha⟩

theorem errState_run (t : Tracker) (ops : List Op) (h : ErrState t) :
    ErrState (run t ops).1 ∧ (run t ops).2 = [] := by
  induction ops generalizing t with
  | nil => exact ⟨h, rfl⟩
  | cons op ops ih =>
    have h1 := errState_step t op h
    have h2 := ih (step t op).1 h1.1
    exact ⟨h2.1, by simp [run, h1.2, h2.2]⟩

end ErrorPath

/-- C4: constructing with either host handle absent yields an instance where
hasError is true, getError is INVALID_GLOBALS, start and pause both return
false leaving the instance unchanged, and across every operation sequence the
lifecycle flags stay false, no native listener is ever attached and nothing
is ever published. -/
theorem claim_C4_invalid_globals (cache : Option String) (opts : Options)
    (h : opts.win = false ∨ opts.doc = none) :
    hasError (createVisibilityStateListener cache opts).1 = true ∧
    getError (createVisibilityStateListener cache opts).1 = some "INVALID_GLOBALS" ∧
    startOp (createVisibilityStateListener cache opts).1
      = ((createVisibilityStateListener cache opts).1, false) ∧
    pauseOp (createVisibilityStateListener cache opts).1
      = ((createVisibilityStateListener cache opts).1, false) ∧
    ∀ ops : List Op,
      (run (createVisibilityStateListener cache opts).1 ops).1.st.started = false ∧
      (run (createVisibilityStateListener cache opts).1 ops).1.st.isPaused = false ∧
      (run (createVisibilityStateListener cache opts).1 ops).1.attached = 0 ∧
      (run (createVisibilityStateListener cache opts).1 ops).2 = [] := by
  obtain ⟨w, dopt, u⟩ := opts
  have herr : ErrState (createVisibilityStateListener cache ⟨w, dopt, u⟩).1 := by
    rcases h with h | h
    · simp only at h
      subst h
      cases dopt <;> exact ⟨rfl, rfl, rfl, rfl⟩
    · simp only at h
      subst h
      cases w <;> exact ⟨rfl, rfl, rfl, rfl⟩
  obtain ⟨he, hs, hp, ha⟩ := herr
  have hsome : (createVisibilityStateListener cache ⟨w, dopt, u⟩).1.st.error.isSome = true := by
    simp [he]
  refine ⟨?_, ?_, ?_, ?_, fun ops => ?_⟩
  · simp [hasError, he, invalidGlobals]
    decide
  · simp [getError, he, invalidGlobals]
  · simp [startOp, hsome]
  · simp [pauseOp, hsome]
  · have hr := errState_run _ ops ⟨he, hs, hp, ha⟩
    exact ⟨hr.1.2.1, hr.1.2.2.1, hr.1.2.2.2, hr.2⟩

/-- Witness for C4 with both handles absent and a start attempted. -/
theorem claim_C4_witness :
    hasError (createVisibilityStateListener none ⟨false, none, none⟩).1 = true ∧
    getError (createVisibilityStateListener none ⟨false, none, none⟩).1
      = some "INVALID_GLOBALS" ∧
    (run (createVisibilityStateListener none ⟨false, none, none⟩).1 [Op.start]).1.st.started
      = false ∧
    (run (createVisibilityStateListener none ⟨false, none, none⟩).1 [Op.start]).1.attached
      = 0 :=
  ⟨(claim_C4_invalid_globals none ⟨false, none, none⟩ (Or.inl rfl)).1,
   (claim_C4_invalid_globals none ⟨false, none, none⟩ (Or.inl rfl)).2.1,
   ((claim_C4_invalid_globals none ⟨false, none, none⟩ (Or.inl rfl)).2.2.2.2 [Op.start]).1,
   ((claim_C4_invalid_globals none ⟨false, none, none⟩ (Or.inl rfl)).2.2.2.2 [Op.start]).2.2.1⟩

section LifecycleLemmas

theorem determineStrategy_isSome (d : Doc) (hp : String) :
    (determineStrategy (some d) hp).isSome = true := by
  unfold determineStrategy
  by_cases h1 : hasProp d hp <;> by_cases h2 : d.hasAddEventListener <;> simp [h1, h2]

theorem startOp_fresh (t : Tracker) (s : Strategy) (he : t.st.error = none)
    (hs : t.st.started = false) (hstrat : t.strategy = some s) :
    startOp t = ({ t with
                    st := { t.st with started := true, isPaused := false },
                    attached := t.attached + 1 }, true) := by
  unfold startOp
  simp [he, hs, hstrat]

theorem startOp_started (t : Tracker) (he : t.st.error = none) (hs : t.st.started = true) :
    startOp t = (t, true) := by
  unfold startOp
  simp [he, hs]

theorem run_onOps (t : Tracker) (ch : String) (ls : List Listener) :
    run t (ls.map (fun l => Op.on ch l))
      = ({ t with events := ls.foldl (fun es l => onEvent es ch l) t.events }, []) := by
  induction ls generalizing t with
  | nil => rfl
  | cons l ls ih =>
    simp only [List.map_cons, run, step, List.foldl_cons]
    rw [ih]
    rfl

theorem lookup_foldl_getD (es : Events) (ch : String) (ls : List Listener) :
    ((lookupEvent (ls.foldl (fun a l => onEvent a ch l) es) ch).getD [])
      = ((lookupEvent es ch).getD []) ++ ls := by
  induction ls generalizing es with
  | nil => simp
  | cons l ls ih =>
    simp only [List.foldl_cons]
    rw [ih (onEvent es ch l), lookupEvent_onEvent_self]
    simp

theorem deliverRep_one (t : Tracker) (v : String) (now : Nat) :
    deliverRep 1 t v now = ((updateState t v now).1, (updateState t v now).2.toList) := by
  simp [deliverRep]

end LifecycleLemmas

/-- C5: on an error-free construction start returns true, a second start
returns true and is a literal no-op that does not attach a second listener
set, and a later native signal bearing a fresh value produces exactly one
publish in which every subscriber is invoked exactly once. -/
theorem claim_C5_start_idempotent (cache : Option String) (d : Doc) (u : Option String)
    (ls : List Listener) (v : String) (now : Nat) (t0 t1 t2 : Tracker)
    (ht0 : t0 = (createVisibilityStateListener cache ⟨true, some d, u⟩).1)
    (ht1 : t1 = (startOp t0).1)
    (ht2 : t2 = (run t1 (ls.map (fun l => Op.on t0.updateEvent l))).1)
    (hthrows : ∀ l ∈ ls, l.throws = false)
    (hnodup : (ls.map Listener.id).Nodup)
    (hv : v ≠ t0.st.value) :
    (startOp t0).2 = true ∧
    (startOp t1).2 = true ∧
    (startOp t1).1 = t1 ∧
    t1.attached = 1 ∧
    (signalOp t2 v now).2.length = 1 ∧
    (∀ pr ∈ (signalOp t2 v now).2, pr.invoked = ls.map Listener.id) ∧
    (∀ pr ∈ (signalOp t2 v now).2, ∀ l ∈ ls, pr.invoked.count l.id = 1) := by
  have he : t0.st.error = none := by rw [ht0]; try rfl
  have hs : t0.st.started = false := by rw [ht0]; try rfl
  have hp : t0.st.isPaused = false := by rw [ht0]; try rfl
  have ha : t0.attached = 0 := by rw [ht0]; try rfl
  have hev : t0.events = [] := by rw [ht0]; try rfl
  have hstrat : ∃ s, t0.strategy = some s := by
    rw [Option.isSome_iff_exists.symm, ht0]
    exact determineStrategy_isSome d _
  obtain ⟨s, hstrat⟩ := hstrat
  have hstart := startOp_fresh t0 s he hs hstrat
  have ht1' : t1 = { t0 with
      st := { t0.st with started := true, isPaused := false },
      attached := t0.attached + 1 } := by rw [ht1, hstart]
  have hb1 : (startOp t0).2 = true := by rw [hstart]
  have hb2 : startOp t1 = (t1, true) := by
    apply startOp_started
    · rw [ht1']; exact he
    · rw [ht1']; try rfl
  have ha1 : t1.attached = 1 := by rw [ht1', ha]
  have ht2' : t2 = { t1 with
      events := ls.foldl (fun es l => onEvent es t0.updateEvent l) t1.events } := by
    rw [ht2, run_onOps]
  have h2p : t2.st.isPaused = false := by rw [ht2', ht1']; try rfl
  have h2v : t2.st.value = t0.st.value := by rw [ht2', ht1']; try rfl
  have h2a : t2.attached = 1 := by rw [ht2']; exact ha1
  have h2u : t2.updateEvent = t0.updateEvent := by rw [ht2', ht1']; try rfl
  have h2ev : t2.events = ls.foldl (fun es l => onEvent es t0.updateEvent l) [] := by
    rw [ht2', ht1', hev]
  have hvv : v ≠ t2.st.value := by rw [h2v]; exact hv
  have hup := updateState_changed t2 v now h2p hvv
  have hups : (updateState t2 v now).2 = some (emit t2.events t2.updateEvent [v]) := by
    rw [hup]
  have hsig : signalOp t2 v now = ((updateState t2 v now).1, (updateState t2 v now).2.toList) := by
    rw [signalOp, h2a, deliverRep_one]
  have hlook : ((lookupEvent t2.events t2.updateEvent).getD []) = ls := by
    rw [h2ev, h2u, lookup_foldl_getD]
    simp [lookupEvent]
  have hinv : (emit t2.events t2.updateEvent [v]).invoked = ls.map Listener.id := by
    rw [emit]
    simp only [hlook]
    rw [runListeners_no_throws ls hthrows]
  refine ⟨hb1, by rw [hb2], by rw [hb2], ha1, ?_, ?_, ?_⟩
  · rw [hsig, hups]
    rfl
  · intro pr hpr
    rw [hsig, hups] at hpr
    simp at hpr
    rw [hpr, hinv]
  · intro pr hpr l hl
    rw [hsig, hups] at hpr
    simp at hpr
    rw [hpr, hinv]
    exact List.count_eq_one_of_mem hnodup (List.mem_map_of_mem Listener.id hl)

/-- Witness for C5 at a concrete document, subscriber and signal. -/
theorem claim_C5_witness :
    (signalOp (run ((startOp ((createVisibilityStateListener none
        ⟨true, some ⟨[("hidden", "")], none, true⟩, none⟩).1)).1)
        [Op.on "update" ⟨7, false⟩]).1 "hidden" 3).2.length = 1 :=
  (claim_C5_start_idempotent none ⟨[("hidden", "")], none, true⟩ none
    [⟨7, false⟩] "hidden" 3
    ((createVisibilityStateListener none ⟨true, some ⟨[("hidden", "")], none, true⟩, none⟩).1)
    ((startOp ((createVisibilityStateListener none
        ⟨true, some ⟨[("hidden", "")], none, true⟩, none⟩).1)).1)
    ((run ((startOp ((createVisibilityStateListener none
        ⟨true, some ⟨[("hidden", "")], none, true⟩, none⟩).1)).1)
        [Op.on "update" ⟨7, false⟩]).1)
    rfl rfl (by decide) (by decide) (by decide) (by decide)).2.2.2.2.1

section WfInvariant

/-- Well-formedness of a reachable tracker: the attached-listener count
mirrors the started flag, an error-free tracker carries a strategy, and the
started flag implies the construction recorded no error. -/
def Wf (t : Tracker) : Prop :=
  t.attached = (if t.st.started then 1 else 0) ∧
  (t.st.error = none → t.strategy.isSome = true) ∧
  (t.st.started = true → t.st.error = none)

theorem wf_create (cache : Option String) (opts : Options) :
    Wf (createVisibilityStateListener cache opts).1 := by
  obtain ⟨w, dopt, u⟩ := opts
  cases dopt with
  | none =>
    exact ⟨rfl, fun h => by exact absurd h (by simp [createVisibilityStateListener]),
           fun h => by exact absurd h (by simp [createVisibilityStateListener])⟩
  | some d =>
    cases w with
    | false =>
      exact ⟨rfl, fun h => by exact absurd h (by simp [createVisibilityStateListener]),
             fun h => by exact absurd h (by simp [createVisibilityStateListener])⟩
    | true =>
      refine ⟨rfl, fun _ => ?_, fun h => rfl⟩
      exact determineStrategy_isSome d _

theorem updateState_frame (t : Tracker) (v : String) (now : Nat) :
    (updateState t v now).1.st.started = t.st.started ∧
    (updateState t v now).1.st.isPaused = t.st.isPaused ∧
    (updateState t v now).1.st.error = t.st.error ∧
    (updateState t v now).1.strategy = t.strategy ∧
    (updateState t v now).1.attached = t.attached ∧
    (updateState t v now).1.updateEvent = t.updateEvent ∧
    (updateState t v now).1.events = t.events := by
  unfold updateState
  by_cases hp : t.st.isPaused = true <;> by_cases hv : v = t.st.value <;> simp [hp, hv]

theorem deliverRep_frame (n : Nat) (t : Tracker) (v : String) (now : Nat) :
    (deliverRep n t v now).1.st.started = t.st.started ∧
    (deliverRep n t v now).1.st.isPaused = t.st.isPaused ∧
    (deliverRep n t v now).1.st.error = t.st.error ∧
    (deliverRep n t v now).1.strategy = t.strategy ∧
    (deliverRep n t v now).1.attached = t.attached ∧
    (deliverRep n t v now).1.updateEvent = t.updateEvent ∧
    (deliverRep n t v now).1.events = t.events := by
  induction n generalizing t with
  | zero => exact ⟨rfl, rfl, rfl, rfl, rfl, rfl, rfl⟩
  | succ n ih =>
    have h1 := updateState_frame t v now
    have h2 := ih (updateState t v now).1
    simp only [deliverRep]
    refine ⟨?_, ?_, ?_, ?_, ?_, ?_, ?_⟩ <;> simp_all

theorem wf_step (t : Tracker) (op : Op) (h : Wf t) : Wf (step t op).1 := by
  obtain ⟨ha, hstrat, hse⟩ := h
  cases op with
  | «on» e l => exact ⟨ha, hstrat, hse⟩
  | start =>
    by_cases he : t.st.error.isSome = true
    · simp [step, startOp, he]
      have hne : ¬ t.st.error = none := by
        cases hh : t.st.error <;> simp_all
      exact ⟨ha, hstrat, hse⟩
    · have hen : t.st.error = none := by
        cases hh : t.st.error <;> simp_all
      by_cases hs : t.st.started = true
      · simp [step, startOp, he, hs]
        exact ⟨ha, hstrat, hse⟩
      · have hs' : t.st.started = false := by simp_all
        obtain ⟨s, hss⟩ := Option.isSome_iff_exists.mp (hstrat hen)
        rw [step, startOp_fresh t s hen hs' hss]
        refine ⟨?_, fun _ => hstrat hen, fun _ => hen⟩
        simp [ha, hs']
  | pause =>
    by_cases he : t.st.error.isSome = true
    · simp [step, pauseOp, he]
      exact ⟨ha, hstrat, hse⟩
    · have hen : t.st.error = none := by
        cases hh : t.st.error <;> simp_all
      by_cases hs : t.st.started = false
      · simp [step, pauseOp, he, hs]
        exact ⟨ha, hstrat, hse⟩
      · have hs' : t.st.started = true := by simp_all
        obtain ⟨s, hss⟩ := Option.isSome_iff_exists.mp (hstrat hen)
        simp only [step, pauseOp, he, hs', if_false, if_true, Bool.false_eq_true, hss]
        refine ⟨?_, fun _ => rfl, by simp⟩
        simp [ha, hs']
  | destroy =>
    by_cases hs : t.st.started = true
    · have hen : t.st.error = none := hse hs
      obtain ⟨s, hss⟩ := Option.isSome_iff_exists.mp (hstrat hen)
      simp only [step, destroyOp, hs, if_true, hss]
      refine ⟨?_, fun _ => rfl, by simp⟩
      simp [ha, hs]
    · have hs' : t.st.started = false := by simp_all
      simp only [step, destroyOp, hs', Bool.false_eq_true, if_false]
      refine ⟨?_, fun _ => hstrat (by simp_all), by simp⟩
      simp [ha, hs']
  | signal v now =>
    have hf := deliverRep_frame t.attached t v now
    rw [step]
    have hsig : (signalOp t v now).1 = (deliverRep t.attached t v now).1 := rfl
    refine ⟨?_, ?_, ?_⟩
    · rw [hsig, hf.2.2.2.2.1, hf.1]
      exact ha
    · rw [hsig, hf.2.2.1, hf.2.2.2.1]
      exact hstrat
    · rw [hsig, hf.1, hf.2.2.1]
      exact hse

theorem wf_run (t : Tracker) (ops : List Op) (h : Wf t) : Wf (run t ops).1 := by
  induction ops generalizing t with
  | nil => exact h
  | cons op ops ih => exact ih (step t op).1 (wf_step t op h)

theorem destroyOp_st (t : Tracker) :
    (destroyOp t).st = { t.st with started := false, isPaused := false } := by
  unfold destroyOp
  by_cases hs : t.st.started = true <;> simp [hs]

theorem destroyOp_events (t : Tracker) : (destroyOp t).events = t.events := by
  unfold destroyOp
  by_cases hs : t.st.started = true <;> simp [hs]

theorem destroyOp_strategy (t : Tracker) : (destroyOp t).strategy = t.strategy := by
  unfold destroyOp
  by_cases hs : t.st.started = true <;> simp [hs]

theorem destroyOp_updateEvent (t : Tracker) : (destroyOp t).updateEvent = t.updateEvent := by
  unfold destroyOp
  by_cases hs : t.st.started = true <;> simp [hs]

theorem destroyOp_of_idle (x : Tracker) (h1 : x.st.started = false)
    (h2 : x.st.isPaused = false) : destroyOp x = x := by
  obtain ⟨ev, st, strat, ue, att⟩ := x
  obtain ⟨err, std, pa, val, pf, vp, hp2, lt, sc⟩ := st
  simp only at h1 h2
  subst h1
  subst h2
  simp [destroyOp]

theorem destroyOp_attached_zero (t : Tracker) (h : Wf t) : (destroyOp t).attached = 0 := by
  obtain ⟨ha, hstrat, hse⟩ := h
  by_cases hs : t.st.started = true
  · obtain ⟨s, hss⟩ := Option.isSome_iff_exists.mp (hstrat (hse hs))
    unfold destroyOp
    simp [hs, hss, ha]
  · have hs' : t.st.started = false := by simp_all
    unfold destroyOp
    simp [hs', ha]

end WfInvariant

/-- C6: destroy only resets the lifecycle flags: the current value, the
count, the timestamp, the error code and the subscriber registrations are
untouched, both flags end false, a repeated destroy is the identity on an
already destroyed instance, destroy without a prior start leaves the host
registry untouched, and on an error-free instance destroy followed by start
re-attaches one listener set after which a fresh-valued native signal
produces exactly the one expected publish. -/
theorem claim_C6_destroy (t : Tracker) (hwf : Wf t) :
    (destroyOp t).st.value = t.st.value ∧
    (destroyOp t).st.stateChangeCount = t.st.stateChangeCount ∧
    (destroyOp t).st.lastStateChangeTime = t.st.lastStateChangeTime ∧
    (destroyOp t).st.error = t.st.error ∧
    (destroyOp t).events = t.events ∧
    (destroyOp t).st.started = false ∧
    (destroyOp t).st.isPaused = false ∧
    destroyOp (destroyOp t) = destroyOp t ∧
    (t.st.started = false → (destroyOp t).attached = t.attached) ∧
    (t.st.error = none → ∀ v now,
       (startOp (destroyOp t)).2 = true ∧
       (startOp (destroyOp t)).1.st.started = true ∧
       (startOp (destroyOp t)).1.st.isPaused = false ∧
       (startOp (destroyOp t)).1.attached = 1 ∧
       (v ≠ t.st.value →
         (signalOp (startOp (destroyOp t)).1 v now).2
           = [emit t.events t.updateEvent [v]])) := by
  have hst := destroyOp_st t
  have hev := destroyOp_events t
  have hstrat := destroyOp_strategy t
  have hue := destroyOp_updateEvent t
  refine ⟨by rw [hst], by rw [hst], by rw [hst], by rw [hst], hev,
          by rw [hst], by rw [hst], ?_, ?_, ?_⟩
  · exact destroyOp_of_idle (destroyOp t) (by rw [hst]) (by rw [hst])
  · intro hs
    unfold destroyOp
    simp [hs]
  · intro hen v now
    obtain ⟨s, hss⟩ := Option.isSome_iff_exists.mp (hwf.2.1 hen)
    have haz := destroyOp_attached_zero t hwf
    have hde : (destroyOp t).st.error = none := by rw [hst]; exact hen
    have hds : (destroyOp t).st.started = false := by rw [hst]
    have hdss : (destroyOp t).strategy = some s := by rw [hstrat]; exact hss
    have hrestart := startOp_fresh (destroyOp t) s hde hds hdss
    have h1 : (startOp (destroyOp t)).1 = { destroyOp t with
        st := { (destroyOp t).st with started := true, isPaused := false },
        attached := (destroyOp t).attached + 1 } := by rw [hrestart]
    refine ⟨by rw [hrestart], by rw [h1], by rw [h1], ?_, ?_⟩
    · rw [h1]
      simp [haz]
    · intro hv
      have hP : (startOp (destroyOp t)).1.st.isPaused = false := by rw [h1]
      have hV : (startOp (destroyOp t)).1.st.value = t.st.value := by
        rw [h1]
        simp only
        rw [hst]
      have hA : (startOp (destroyOp t)).1.attached = 1 := by rw [h1]; simp [haz]
      have hE : (startOp (destroyOp t)).1.events = t.events := by
        rw [h1]
        simp only
        rw [hev]
      have hU : (startOp (destroyOp t)).1.updateEvent = t.updateEvent := by
        rw [h1]
        simp only
        rw [hue]
      have hvv : v ≠ (startOp (destroyOp t)).1.st.value := by rw [hV]; exact hv
      have hch := updateState_changed (startOp (destroyOp t)).1 v now hP hvv
      rw [signalOp, hA, deliverRep_one, hch]
      simp [hE, hU]

/-- Witness for C6 at a concrete started tracker. -/
theorem claim_C6_witness :
    (destroyOp ⟨[("update", [⟨7, false⟩])],
        ⟨none, true, false, "visible", "", "visibilityState", "hidden", none, 0⟩,
        some Strategy.modern, "update", 1⟩).st.value = "visible" ∧
    (signalOp (startOp (destroyOp ⟨[("update", [⟨7, false⟩])],
        ⟨none, true, false, "visible", "", "visibilityState", "hidden", none, 0⟩,
        some Strategy.modern, "update", 1⟩)).1 "hidden" 9).2
      = [emit [("update", [⟨7, false⟩])] "update" ["hidden"]] :=
  ⟨(claim_C6_destroy ⟨[("update", [⟨7, false⟩])],
      ⟨none, true, false, "visible", "", "visibilityState", "hidden", none, 0⟩,
      some Strategy.modern, "update", 1⟩ (by refine ⟨rfl, fun _ => rfl, fun _ => rfl⟩)).1,
   ((claim_C6_destroy ⟨[("update", [⟨7, false⟩])],
      ⟨none, true, false, "visible", "", "visibilityState", "hidden", none, 0⟩,
      some Strategy.modern, "update", 1⟩ (by refine ⟨rfl, fun _ => rfl, fun _ => rfl⟩)).2.2.2.2.2.2.2.2.2
      rfl "hidden" 9).2.2.2.2 (by decide)⟩

/-- C7 fails on the code: against a document exposing the hidden property but
not the visibility property, with a focus query reporting no focus, the
strategy is modern yet the seeded value is the focus-derived hidden, while
the claim's rule (under the modern strategy, property read with fallback to
the default) predicts visible. -/
theorem claim_C7_counterexample :
    (createVisibilityStateListener none
        ⟨true, some ⟨[("hidden", "1")], some false, true⟩, none⟩).1.strategy
      = some Strategy.modern ∧
    getStateChangeCount (createVisibilityStateListener none
        ⟨true, some ⟨[("hidden", "1")], some false, true⟩, none⟩).1 = 0 ∧
    getLastStateChangeTime (createVisibilityStateListener none
        ⟨true, some ⟨[("hidden", "1")], some false, true⟩, none⟩).1 = none ∧
    getState (createVisibilityStateListener none
        ⟨true, some ⟨[("hidden", "1")], some false, true⟩, none⟩).1 = "hidden" ∧
    specSeedValue ⟨[("hidden", "1")], some false, true⟩
        (createVisibilityStateListener none
          ⟨true, some ⟨[("hidden", "1")], some false, true⟩, none⟩).1.strategy
        (createVisibilityStateListener none
          ⟨true, some ⟨[("hidden", "1")], some false, true⟩, none⟩).1.st.visibilityProp
      = "visible" ∧
    getState (createVisibilityStateListener none
        ⟨true, some ⟨[("hidden", "1")], some false, true⟩, none⟩).1
      ≠ specSeedValue ⟨[("hidden", "1")], some false, true⟩
        (createVisibilityStateListener none
          ⟨true, some ⟨[("hidden", "1")], some false, true⟩, none⟩).1.strategy
        (createVisibilityStateListener none
          ⟨true, some ⟨[("hidden", "1")], some false, true⟩, none⟩).1.st.visibilityProp := by
  decide

/-- C7 (amended): immediately after an error-free construction getState is
the document's visibility-property value, with fallback to the default on an
empty read, when the strategy is modern and the visibility property exists on
the document; otherwise visible or hidden as the focus query reports when one
exists; otherwise the baseline default — with the count zero and the
timestamp null. -/
theorem claim_C7_initial_state (cache : Option String) (d : Doc) (u : Option String)
    (t : Tracker)
    (ht : t = (createVisibilityStateListener cache ⟨true, some d, u⟩).1) :
    t.st.error = none ∧
    getStateChangeCount t = 0 ∧
    getLastStateChangeTime t = none ∧
    getState t =
      (if t.strategy == some Strategy.modern && hasProp d t.st.visibilityProp then
         if ((getProp d t.st.visibilityProp).getD "").length > 0 then
           (getProp d t.st.visibilityProp).getD ""
         else "visible"
       else if d.hasFocus.isSome then
         if d.hasFocus.getD false then "visible" else "hidden"
       else "visible") := by
  subst ht
  exact ⟨rfl, rfl, rfl, rfl⟩

/-- Witness for the amended C7 at a concrete document. -/
theorem claim_C7_witness :
    (createVisibilityStateListener none
        ⟨true, some ⟨[("hidden", ""), ("visibilityState", "prerender")], none, true⟩,
         none⟩).1.st.error = none ∧
    getState (createVisibilityStateListener none
        ⟨true, some ⟨[("hidden", ""), ("visibilityState", "prerender")], none, true⟩,
         none⟩).1 = "prerender" := by
  have h := claim_C7_initial_state none
    ⟨[("hidden", ""), ("visibilityState", "prerender")], none, true⟩ none
    (createVisibilityStateListener none
      ⟨true, some ⟨[("hidden", ""), ("visibilityState", "prerender")], none, true⟩,
       none⟩).1 rfl
  refine ⟨h.1, ?_⟩
  rw [h.2.2.2]
  decide

section CounterLemmas

theorem updateState_count (t : Tracker) (v : String) (now : Nat) :
    (updateState t v now).1.st.stateChangeCount
      = t.st.stateChangeCount + (updateState t v now).2.toList.length := by
  unfold updateState
  by_cases hp : t.st.isPaused = true <;> by_cases hv : v = t.st.value <;> simp [hp, hv]

theorem updateState_noPub (t : Tracker) (v : String) (now : Nat)
    (h : (updateState t v now).2 = none) : (updateState t v now).1 = t := by
  unfold updateState at h ⊢
  by_cases hp : t.st.isPaused = true <;> by_cases hv : v = t.st.value <;> simp_all

theorem updateState_time_or (t : Tracker) (v : String) (now : Nat) :
    (updateState t v now).1.st.lastStateChangeTime = t.st.lastStateChangeTime ∨
    (updateState t v now).1.st.lastStateChangeTime = some now := by
  unfold updateState
  by_cases hp : t.st.isPaused = true <;> by_cases hv : v = t.st.value <;> simp [hp, hv]

theorem deliverRep_count (n : Nat) (t : Tracker) (v : String) (now : Nat) :
    (deliverRep n t v now).1.st.stateChangeCount
      = t.st.stateChangeCount + (deliverRep n t v now).2.length := by
  induction n generalizing t with
  | zero => rfl
  | succ n ih =>
    simp only [deliverRep, List.length_append]
    rw [ih (updateState t v now).1, updateState_count t v now]
    omega

theorem deliverRep_noPub (n : Nat) (t : Tracker) (v : String) (now : Nat)
    (h : (deliverRep n t v now).2 = []) : (deliverRep n t v now).1 = t := by
  induction n generalizing t with
  | zero => rfl
  | succ n ih =>
    simp only [deliverRep, List.append_eq_nil] at h ⊢
    have h0 : (updateState t v now).2 = none := by
      cases hc : (updateState t v now).2 <;> simp [hc] at h ⊢
    have h1 := updateState_noPub t v now h0
    rw [h1] at h ⊢
    exact ih t h.2

theorem deliverRep_time_or (n : Nat) (t : Tracker) (v : String) (now : Nat) :
    (deliverRep n t v now).1.st.lastStateChangeTime = t.st.lastStateChangeTime ∨
    (deliverRep n t v now).1.st.lastStateChangeTime = some now := by
  induction n generalizing t with
  | zero => exact Or.inl rfl
  | succ n ih =>
    simp only [deliverRep]
    rcases ih (updateState t v now).1 with h | h
    · rw [h]
      exact updateState_time_or t v now
    · exact Or.inr h

theorem startOp_frame (t : Tracker) :
    (startOp t).1.events = t.events ∧
    (startOp t).1.updateEvent = t.updateEvent ∧
    (startOp t).1.st.lastStateChangeTime = t.st.lastStateChangeTime ∧
    (startOp t).1.st.stateChangeCount = t.st.stateChangeCount ∧
    (startOp t).1.st.value = t.st.value := by
  unfold startOp
  by_cases he : t.st.error.isSome = true <;> by_cases hs : t.st.started = true <;>
    simp [he, hs]

theorem pauseOp_frame (t : Tracker) :
    (pauseOp t).1.events = t.events ∧
    (pauseOp t).1.updateEvent = t.updateEvent ∧
    (pauseOp t).1.st.lastStateChangeTime = t.st.lastStateChangeTime ∧
    (pauseOp t).1.st.stateChangeCount = t.st.stateChangeCount ∧
    (pauseOp t).1.st.value = t.st.value := by
  unfold pauseOp
  by_cases he : t.st.error.isSome = true <;> by_cases hs : t.st.started = false <;>
    simp [he, hs]

theorem step_count (t : Tracker) (op : Op) :
    (step t op).1.st.stateChangeCount
      = t.st.stateChangeCount + (step t op).2.length := by
  cases op with
  | «on» e l => rfl
  | start => simp [step, (startOp_frame t).2.2.2.1]
  | pause => simp [step, (pauseOp_frame t).2.2.2.1]
  | destroy => simp [step, destroyOp_st t]
  | signal v now => simp [step, signalOp, deliverRep_count]

theorem run_count (t : Tracker) (ops : List Op) :
    (run t ops).1.st.stateChangeCount
      = t.st.stateChangeCount + (run t ops).2.length := by
  induction ops generalizing t with
  | nil => rfl
  | cons op ops ih =>
    simp only [run, List.length_append]
    rw [ih (step t op).1, step_count t op]
    omega

theorem step_time_or (t : Tracker) (op : Op) :
    (step t op).1.st.lastStateChangeTime = t.st.lastStateChangeTime ∨
    ∃ v now, op = Op.signal v now ∧ (step t op).1.st.lastStateChangeTime = some now := by
  cases op with
  | «on» e l => exact Or.inl rfl
  | start => exact Or.inl (startOp_frame t).2.2.1
  | pause => exact Or.inl (pauseOp_frame t).2.2.1
  | destroy => exact Or.inl (by simp [step, destroyOp_st t])
  | signal v now =>
    rcases deliverRep_time_or t.attached t v now with h | h
    · exact Or.inl h
    · exact Or.inr ⟨v, now, rfl, h⟩

theorem step_noPub_time (t : Tracker) (op : Op) (h : (step t op).2 = []) :
    (step t op).1.st.lastStateChangeTime = t.st.lastStateChangeTime := by
  cases op with
  | «on» e l => rfl
  | start => exact (startOp_frame t).2.2.1
  | pause => exact (pauseOp_frame t).2.2.1
  | destroy => simp [step, destroyOp_st t]
  | signal v now =>
    have := deliverRep_noPub t.attached t v now h
    simp only [step, signalOp]
    rw [this]

theorem run_noPub_time (t : Tracker) (ops : List Op) (h : (run t ops).2 = []) :
    (run t ops).1.st.lastStateChangeTime = t.st.lastStateChangeTime := by
  induction ops generalizing t with
  | nil => rfl
  | cons op ops ih =>
    simp only [run, List.append_eq_nil] at h
    calc (run (step t op).1 ops).1.st.lastStateChangeTime
        = (step t op).1.st.lastStateChangeTime := ih (step t op).1 h.2
      _ = t.st.lastStateChangeTime := step_noPub_time t op h.1

end CounterLemmas

/-- C9: across every operation sequence the count grows by exactly one per
accepted transition (one per produced publish) and never decreases; the
timestamp is null at construction, is rewritten only when a transition is
accepted, and, provided the host clock never runs behind the recorded
timestamp, it never decreases. -/
theorem claim_C9_monotone_counters :
    (∀ (t : Tracker) (ops : List Op),
       (run t ops).1.st.stateChangeCount
         = t.st.stateChangeCount + (run t ops).2.length) ∧
    (∀ (t : Tracker) (ops : List Op),
       t.st.stateChangeCount ≤ (run t ops).1.st.stateChangeCount) ∧
    (∀ (cache : Option String) (opts : Options),
       (createVisibilityStateListener cache opts).1.st.lastStateChangeTime = none ∧
       (createVisibilityStateListener cache opts).1.st.stateChangeCount = 0) ∧
    (∀ (t : Tracker) (ops : List Op),
       (run t ops).2 = [] →
       (run t ops).1.st.lastStateChangeTime = t.st.lastStateChangeTime) ∧
    (∀ (t : Tracker) (op : Op) (x : Nat),
       t.st.lastStateChangeTime = some x →
       (∀ v now, op = Op.signal v now → x ≤ now) →
       ∀ y, (step t op).1.st.lastStateChangeTime = some y → x ≤ y) := by
  refine ⟨run_count, ?_, ?_, run_noPub_time, ?_⟩
  · intro t ops
    rw [run_count t ops]
    exact Nat.le_add_right _ _
  · intro cache opts
    obtain ⟨w, dopt, u⟩ := opts
    cases dopt <;> cases w <;> exact ⟨rfl, rfl⟩
  · intro t op x hx hclock y hy
    rcases step_time_or t op with h | ⟨v, now, hop, h⟩
    · rw [h, hx] at hy
      cases hy
      exact Nat.le_refl x
    · rw [h] at hy
      cases hy
      exact hclock v y (by rw [hop])

/-- Witness for C9 at a concrete tracker, construction and signal. -/
theorem claim_C9_witness :
    (createVisibilityStateListener none ⟨false, none, none⟩).1.st.lastStateChangeTime
      = none ∧
    (run ⟨[], ⟨none, true, false, "visible", "", "", "", some 3, 4⟩,
        some Strategy.modern, "update", 1⟩ [Op.signal "hidden" 5]).1.st.stateChangeCount
      = 4 + (run ⟨[], ⟨none, true, false, "visible", "", "", "", some 3, 4⟩,
          some Strategy.modern, "update", 1⟩ [Op.signal "hidden" 5]).2.length ∧
    3 ≤ 5 :=
  ⟨(claim_C9_monotone_counters.2.2.1 none ⟨false, none, none⟩).1,
   claim_C9_monotone_counters.1
     ⟨[], ⟨none, true, false, "visible", "", "", "", some 3, 4⟩,
       some Strategy.modern, "update", 1⟩ [Op.signal "hidden" 5],
   claim_C9_monotone_counters.2.2.2.2
     ⟨[], ⟨none, true, false, "visible", "", "", "", some 3, 4⟩,
       some Strategy.modern, "update", 1⟩ (Op.signal "hidden" 5) 3 rfl
     (by intro v now h; injection h with h1 h2; omega) 5 (by decide)⟩

section ChannelLemmas

theorem emit_invoked_subset (es : Events) (e : String) (args : List String) :
    ∀ i ∈ (emit es e args).invoked, ∃ l ∈ (lookupEvent es e).getD [], l.id = i := by
  intro i hi
  exact runListeners_subset _ i hi

theorem updateState_pub_or (t : Tracker) (v : String) (now : Nat) :
    (updateState t v now).2 = none ∨
    (updateState t v now).2 = some (emit t.events t.updateEvent [v]) := by
  unfold updateState
  by_cases hp : t.st.isPaused = true <;> by_cases hv : v = t.st.value <;> simp [hp, hv]

theorem deliverRep_pub (n : Nat) (t : Tracker) (v : String) (now : Nat)
    (pr : PublishRecord) (h : pr ∈ (deliverRep n t v now).2) :
    pr = emit t.events t.updateEvent [v] := by
  induction n generalizing t with
  | zero => simp [deliverRep] at h
  | succ n ih =>
    simp only [deliverRep, List.mem_append] at h
    rcases h with h | h
    · rcases updateState_pub_or t v now with h0 | h0 <;> rw [h0] at h
      · simp at h
      · simp at h
        exact h
    · have hf := updateState_frame t v now
      have := ih (updateState t v now).1 h
      rw [this, hf.2.2.2.2.2.1, hf.2.2.2.2.2.2]

theorem step_events (t : Tracker) (op : Op) (h : ∀ e l, op ≠ Op.on e l) :
    (step t op).1.events = t.events := by
  cases op with
  | «on» e l => exact absurd rfl (h e l)
  | start => exact (startOp_frame t).1
  | pause => exact (pauseOp_frame t).1
  | destroy => exact destroyOp_events t
  | signal v now => exact (deliverRep_frame t.attached t v now).2.2.2.2.2.2

theorem step_updateEvent (t : Tracker) (op : Op) :
    (step t op).1.updateEvent = t.updateEvent := by
  cases op with
  | «on» e l => rfl
  | start => exact (startOp_frame t).2.1
  | pause => exact (pauseOp_frame t).2.1
  | destroy => exact destroyOp_updateEvent t
  | signal v now => exact (deliverRep_frame t.attached t v now).2.2.2.2.2.1

theorem step_pub (t : Tracker) (op : Op) (pr : PublishRecord)
    (h : pr ∈ (step t op).2) : ∃ v, pr = emit t.events t.updateEvent [v] := by
  cases op with
  | «on» e l => simp [step] at h
  | start => simp [step] at h
  | pause => simp [step] at h
  | destroy => simp [step] at h
  | signal v now => exact ⟨v, deliverRep_pub t.attached t v now pr h⟩

end ChannelLemmas

/-- C10: every publish a tracker ever performs is on its configured update
channel, and every callback it ever invokes is one that was registered under
that channel, either before the run or by a subscription operation inside the
run; a callback registered under any other event name is never invoked. -/
theorem claim_C10_only_update_channel (t : Tracker) (ops : List Op) (pr : PublishRecord)
    (hpr : pr ∈ (run t ops).2) :
    pr.channel = t.updateEvent ∧
    ∀ i ∈ pr.invoked, ∃ l : Listener, l.id = i ∧
      (l ∈ (lookupEvent t.events t.updateEvent).getD [] ∨ Op.on t.updateEvent l ∈ ops) := by
  induction ops generalizing t with
  | nil => simp [run] at hpr
  | cons op ops ih =>
    simp only [run, List.mem_append] at hpr
    rcases hpr with h | h
    · obtain ⟨v, hv⟩ := step_pub t op pr h
      subst hv
      refine ⟨rfl, ?_⟩
      intro i hi
      obtain ⟨l, hl, hli⟩ := emit_invoked_subset t.events t.updateEvent [v] i hi
      exact ⟨l, hli, Or.inl hl⟩
    · have hmain := ih (step t op).1 h
      have hu := step_updateEvent t op
      refine ⟨by rw [hmain.1, hu], ?_⟩
      intro i hi
      obtain ⟨l, hli, hcase⟩ := hmain.2 i hi
      rcases hcase with hmem | hops
      · rw [hu] at hmem
        cases op with
        | «on» e l2 =>
          have hev : (step t (Op.on e l2)).1.events = onEvent t.events e l2 := rfl
          rw [hev] at hmem
          by_cases hech : e = t.updateEvent
          · subst hech
            have hlk : (lookupEvent (onEvent t.events t.updateEvent l2) t.updateEvent).getD []
                = ((lookupEvent t.events t.updateEvent).getD []) ++ [l2] := by
              rw [lookupEvent_onEvent_self]
              rfl
            rw [hlk] at hmem
            rcases List.mem_append.mp hmem with h1 | h1
            · exact ⟨l, hli, Or.inl h1⟩
            · have : l = l2 := by simpa using h1
              subst this
              exact ⟨l, hli, Or.inr (List.mem_cons_self _ _)⟩
          · rw [lookupEvent_onEvent_other t.events t.updateEvent e l2 hech] at hmem
            exact ⟨l, hli, Or.inl hmem⟩
        | start =>
          rw [step_events t Op.start (by intro e l2 h2; cases h2)] at hmem
          exact ⟨l, hli, Or.inl hmem⟩
        | pause =>
          rw [step_events t Op.pause (by intro e l2 h2; cases h2)] at hmem
          exact ⟨l, hli, Or.inl hmem⟩
        | destroy =>
          rw [step_events t Op.destroy (by intro e l2 h2; cases h2)] at hmem
          exact ⟨l, hli, Or.inl hmem⟩
        | signal v now =>
          rw [step_events t (Op.signal v now) (by intro e l2 h2; cases h2)] at hmem
          exact ⟨l, hli, Or.inl hmem⟩
      · rw [hu] at hops
        exact ⟨l, hli, Or.inr (List.mem_cons_of_mem op hops)⟩

/-- Witness for C10 on a concrete started tracker and signal. -/
theorem claim_C10_witness :
    (⟨"update", ["hidden"], [7], false⟩ : PublishRecord).channel = "update" ∧
    ∃ l : Listener, l.id = 7 ∧
      (l ∈ (lookupEvent [("update", [⟨7, false⟩])] "update").getD [] ∨
       Op.on "update" l ∈ [Op.signal "hidden" 2]) :=
  ⟨(claim_C10_only_update_channel
      ⟨[("update", [⟨7, false⟩])],
        ⟨none, true, false, "visible", "", "", "", none, 0⟩,
        some Strategy.modern, "update", 1⟩
      [Op.signal "hidden" 2] ⟨"update", ["hidden"], [7], false⟩ (by decide)).1,
   (claim_C10_only_update_channel
      ⟨[("update", [⟨7, false⟩])],
        ⟨none, true, false, "visible", "", "", "", none, 0⟩,
        some Strategy.modern, "update", 1⟩
      [Op.signal "hidden" 2] ⟨"update", ["hidden"], [7], false⟩ (by decide)).2 7 (by decide)⟩

end VisibilityListener
